import Mathlib

/-!
Verification of the capture-and-extraction pipeline of the Notion_Scripts
repository (`Not_JoAps.py`, `Not_JoAps-WD.py`).

The development shallowly embeds the two algorithmic cores:

* `compress_png_to_pdf_under_size` — the iterative size-bounded PNG→PDF
  compression loop.  The external image codec is modelled as an oracle
  `sizeAt : ℕ × ℕ → ℕ` giving the byte size of the document produced from a
  resized bitmap (the code treats the codec as a black box and only inspects
  the resulting file size).  The Python float `scale` takes exactly the
  values `0.8 ^ k`; it is embedded exactly by tracking the exponent `k` and
  computing with the rational `(4/5) ^ k` (all comparisons performed by the
  code stay far from the decision boundaries, so exact rational arithmetic
  and IEEE doubles branch identically here).  Bridging lemmas relate the
  integer formulas used in the embedding to the real-valued `floor` and
  `≤ 0.4` tests of the source.

* `extract_job_info_from_html` (both variants) — the heuristic metadata
  extraction cascade.  BeautifulSoup is an external collaborator; the parsed
  document is modelled by a `Soup` record holding exactly the query results
  the code reads (og-title content, `<title>` string, first `<h1>` text,
  attribute-selector hits, og-site-name, hiringOrganization name, and the
  parsed JSON-LD script payloads).  The empty string encodes an absent
  element/attribute, which is observationally faithful because every use in
  the source goes through Python truthiness.  `urlparse(url).hostname` is an
  external parse, passed in as `Option String`.

Python string primitives used by the code (`strip`, `split`, `replace`,
`lower`, `capitalize`, slicing, and the two regexes) are re-implemented over
`List Char` so that every definition evaluates by kernel reduction.
-/

/-! ## Python string primitives -/

/-- Python `\s` for the ASCII range (`re.sub(r"\s+", " ", ...)`, `str.strip()`). -/
def wsChar (c : Char) : Bool :=
  c == ' ' || c == '\t' || c == '\n' || c == '\r' || c == '\x0b' || c == '\x0c'

/-- `str.strip()` on a char list. -/
def sTrimL (l : List Char) : List Char :=
  ((l.dropWhile wsChar).reverse.dropWhile wsChar).reverse

/-- Python `str.strip()` (whitespace from both ends). -/
def sTrim (s : String) : String :=
  String.mk (sTrimL s.data)

/-- Python `str.strip(chars)`: remove any of the given characters from both ends. -/
def stripSet (s : String) (cs : List Char) : String :=
  String.mk (((s.data.dropWhile (cs.contains ·)).reverse.dropWhile (cs.contains ·)).reverse)

/-- If `pat` is a leading run of `l`, return the remainder. -/
def stripLead : List Char → List Char → Option (List Char)
  | [], l => some l
  | _, [] => none
  | p :: ps, c :: cs => if p = c then stripLead ps cs else none

/-- Prepend a char onto the first chunk of a split result. -/
def consCurrent (rs : List (List Char)) (c : Char) : List (List Char) :=
  match rs with
  | [] => [[c]]
  | r :: rest => (c :: r) :: rest

/-- Core of Python `str.split(sep)` for a non-empty separator `s0 :: sr`:
non-overlapping, left-to-right.  Structural recursion on a fuel argument;
callers pass the input length, and a recursive call always gets a strictly
shorter list (`stripLead` only ever removes characters), so the fuel-zero
case for a non-empty list is unreachable. -/
def splitCore (s0 : Char) (sr : List Char) : ℕ → List Char → List (List Char)
  | _, [] => [[]]
  | 0, l => [l]
  | fuel + 1, c :: cs =>
    if c = s0 then
      match stripLead sr cs with
      | some rest => [] :: splitCore s0 sr fuel rest
      | none => consCurrent (splitCore s0 sr fuel cs) c
    else consCurrent (splitCore s0 sr fuel cs) c

/-- Python `str.split(sep)` (the degenerate empty separator never occurs in the code). -/
def sSplit (s sep : String) : List String :=
  match sep.data with
  | [] => [s]
  | c :: cs => (splitCore c cs s.data.length s.data).map (fun l => String.mk l)

/-- `sep in s` (Python substring membership), via the split. -/
def sContainsP (s sep : String) : Prop :=
  2 ≤ (sSplit s sep).length

instance (s sep : String) : Decidable (sContainsP s sep) := by
  unfold sContainsP
  infer_instance

/-- Python `str.join`. -/
def sJoin (sep : String) : List String → String
  | [] => ""
  | [x] => x
  | x :: y :: xs => x ++ sep ++ sJoin sep (y :: xs)

/-- `s.split(sep, 1)[0]`: the text before the first occurrence (or all of `s`). -/
def beforeFirst (s sep : String) : String :=
  (sSplit s sep).headD s

/-- `s.split(sep, 1)[1]`: the text after the first occurrence. -/
def afterFirst (s sep : String) : String :=
  sJoin sep ((sSplit s sep).tail)

/-- `s.split(sep)[-1]`: the text after the last occurrence. -/
def lastPart (s sep : String) : String :=
  (sSplit s sep).getLastD s

/-- Replace all occurrences of the non-empty pattern `p0 :: pr` with `r`,
left-to-right, non-overlapping (Python `str.replace`).  Fuel as in `splitCore`. -/
def replaceL (p0 : Char) (pr : List Char) (r : List Char) : ℕ → List Char → List Char
  | _, [] => []
  | 0, l => l
  | fuel + 1, c :: cs =>
    if c = p0 then
      match stripLead pr cs with
      | some rest => r ++ replaceL p0 pr r fuel rest
      | none => c :: replaceL p0 pr r fuel cs
    else c :: replaceL p0 pr r fuel cs

/-- Python `str.replace` (the code never calls it with an empty pattern). -/
def sReplace (s pat repl : String) : String :=
  match pat.data with
  | [] => s
  | c :: cs => String.mk (replaceL c cs repl.data s.data.length s.data)

/-- Python `str.lower()` (ASCII). -/
def sToLower (s : String) : String :=
  String.mk (s.data.map Char.toLower)

/-- Python `str.capitalize()`: first char upper-cased, the rest lower-cased. -/
def pyCapitalize (s : String) : String :=
  match s.data with
  | [] => ""
  | c :: cs => String.mk (Char.toUpper c :: cs.map Char.toLower)

/-- Python slicing `s[:n]` (by code point). -/
def sTake (s : String) (n : ℕ) : String :=
  String.mk (s.data.take n)

/-- `x or d` for Python `Optional[str]` (`None` and `""` are falsy). -/
def pyOrStr (o : Option String) (d : String) : String :=
  match o with
  | some s => if s ≠ "" then s else d
  | none => d

/-- Collapse every maximal whitespace run to a single space
(`re.sub(r"\s+", " ", text)`).  The flag records whether the previous
character belonged to a whitespace run. -/
def collapseWsAux : Bool → List Char → List Char
  | _, [] => []
  | prevWs, c :: cs =>
    if wsChar c then
      if prevWs then collapseWsAux true cs
      else ' ' :: collapseWsAux true cs
    else c :: collapseWsAux false cs

/-- The characters removed by `re.sub(r'[\\/:*?"<>|]', "", text)`. -/
def isForbidden (c : Char) : Bool :=
  ['\\', '/', ':', '*', '?', '"', '<', '>', '|'].contains c

/-- `sanitize_for_filename` (identical in `Not_JoAps.py` and `Not_JoAps-WD.py`):
normalize whitespace, remove forbidden characters, spaces to underscores,
truncate to 80, `"Unknown"` for empty input/result. -/
def sanitize_for_filename (text : String) : String :=
  if text = "" then "Unknown"
  else
    let t1 := sTrim (String.mk (collapseWsAux false text.data))
    let t2 := String.mk (t1.data.filter (fun c => !(isForbidden c)))
    let t3 := sReplace t2 " " "_"
    let t4 := sTake t3 80
    if t4 = "" then "Unknown" else t4

/-! ## The compression loop (`compress_png_to_pdf_under_size`)

The loop of `compress_png_to_pdf_under_size` starts at `scale = 1.0` and
multiplies by `0.8` after a failed attempt, so on attempt `k` (0-based)
`scale = 0.8 ^ k` exactly; the embedding tracks `k`.  `int(width * scale)`
truncates toward zero, which for the non-negative values here is
`⌊width * (4/5) ^ k⌋ = width * 4 ^ k / 5 ^ k` (natural division), and
`scale <= 0.4` is `(4/5) ^ k ≤ 2/5`, i.e. `5 * 4 ^ k ≤ 2 * 5 ^ k`; the
bridging lemmas below prove both identities. -/

/-- The inputs of one `compress_png_to_pdf_under_size` call: the decoded
bitmap's dimensions, the byte budget, and the external encoder oracle giving
the byte size of the PDF produced from a resized bitmap (PIL is an external
collaborator; the code only reads `os.path.getsize` of its output). -/
structure CompressCfg where
  width : ℕ
  height : ℕ
  maxBytes : ℕ
  sizeAt : ℕ × ℕ → ℕ

/-- `min_width = 800` — "don't shrink below this width". -/
def min_width : ℕ := 800

/-- `int(n * scale)` for `scale = 0.8 ^ k`, computed exactly. -/
def scaledDim (n k : ℕ) : ℕ := n * 4 ^ k / 5 ^ k

/-- `target_w = max(min_width, int(width * scale))`,
`target_h = int(height * scale)` — the resample target of attempt `k`. -/
def targetDims (width height k : ℕ) : ℕ × ℕ :=
  (max min_width (scaledDim width k), scaledDim height k)

/-- One attempt of the loop: the scale exponent, the resample target and the
byte size of the resulting PDF. -/
structure Attempt where
  k : ℕ
  dims : ℕ × ℕ
  size : ℕ
deriving DecidableEq

/-- The attempt performed at scale exponent `k`. -/
def mkAttempt (cfg : CompressCfg) (k : ℕ) : Attempt :=
  ⟨k, targetDims cfg.width cfg.height k, cfg.sizeAt (targetDims cfg.width cfg.height k)⟩

/-- `size <= max_bytes or scale <= 0.4` — the in-loop acceptance test. -/
def acceptCond (cfg : CompressCfg) (a : Attempt) : Prop :=
  a.size ≤ cfg.maxBytes ∨ 5 * 4 ^ a.k ≤ 2 * 5 ^ a.k

instance (cfg : CompressCfg) (a : Attempt) : Decidable (acceptCond cfg a) := by
  unfold acceptCond
  infer_instance

/-- The attempts the loop actually performs, in order, starting at scale
exponent `k` with `n` loop iterations remaining (`range(7)` ⇒ `n = 7`).
The first accepted attempt ends the list; a final failed attempt is still
recorded (it is the one moved best-effort after the loop). -/
def compressAttempts (cfg : CompressCfg) : ℕ → ℕ → List Attempt
  | 0, _ => []
  | n + 1, k =>
    if acceptCond cfg (mkAttempt cfg k) then [mkAttempt cfg k]
    else mkAttempt cfg k :: compressAttempts cfg n (k + 1)

/-- How the call returned: `accepted` via the in-loop `return`, or
`exhausted` via the post-loop best-effort `shutil.move` fallback. -/
inductive CompressOutcome where
  | accepted (a : Attempt)
  | exhausted (a : Attempt)
deriving DecidableEq

/-- The loop of `compress_png_to_pdf_under_size` with `n` iterations
remaining at scale exponent `k`.  The fuel-zero case is unreachable for the
actual entry point (`n = 7`). -/
def compressGo (cfg : CompressCfg) : ℕ → ℕ → CompressOutcome
  | 0, k => .exhausted (mkAttempt cfg k)
  | 1, k =>
    if acceptCond cfg (mkAttempt cfg k) then .accepted (mkAttempt cfg k)
    else .exhausted (mkAttempt cfg k)
  | n + 2, k =>
    if acceptCond cfg (mkAttempt cfg k) then .accepted (mkAttempt cfg k)
    else compressGo cfg (n + 1) (k + 1)

/-- `compress_png_to_pdf_under_size`: up to 7 attempts, `scale` from `1.0`. -/
def compress_png_to_pdf_under_size (cfg : CompressCfg) : CompressOutcome :=
  compressGo cfg 7 0

theorem compressAttempts_succ (cfg : CompressCfg) (n k : ℕ) :
    compressAttempts cfg (n + 1) k =
      if acceptCond cfg (mkAttempt cfg k) then [mkAttempt cfg k]
      else mkAttempt cfg k :: compressAttempts cfg n (k + 1) := rfl

/-! ## Filesystem effects of the compression loop

`compress_png_to_pdf_under_size` writes a temporary JPEG (`*_tmp.jpg`) and a
scratch PDF (`*.tmp`); on the in-loop `return` and after the loop it moves
the scratch PDF onto the final path and removes the JPEG.  To check the
cleanup claim we track which of the three files exist and let an oracle say
which library call raises at which iteration (`Image.resize`/`save`/
`os.path.getsize` can raise `IOError`/`MemoryError`).  On an exception the
run ends in `Except.error` carrying the files present at that moment — the
source has no `try`/`finally` around the loop. -/

/-- Which intermediate/final files exist on disk (the input PNG is untouched
throughout and is omitted). -/
structure FsState where
  tempJpeg : Bool
  tmpPdf : Bool
  finalPdf : Bool
deriving DecidableEq

/-- The fallible library calls inside one loop iteration. -/
inductive CStep where
  | resize
  | saveJpeg
  | savePdf
  | getSize
deriving DecidableEq

/-- `shutil.move(tmp_pdf, pdf_path)` followed by
`if os.path.exists(temp_jpeg): os.remove(temp_jpeg)`. -/
def finalizeFs (st : FsState) : FsState :=
  { st with tempJpeg := false, tmpPdf := false, finalPdf := true }

/-- The loop of `compress_png_to_pdf_under_size` with its filesystem
effects.  `orc i step = true` means the library call `step` raises during
iteration `i`.  Saving a file marks it as existing (a partially written file
still exists); an uncaught exception returns `error` with the current disk
state.  Fuel-zero is the post-loop fallback (move + remove). -/
def compressRun (orc : ℕ → CStep → Bool) (cfg : CompressCfg) :
    ℕ → ℕ → ℕ → FsState → Except FsState FsState
  | _, 0, _, st => .ok (finalizeFs st)
  | i, n + 1, k, st =>
    if orc i .resize then .error st
    else if orc i .saveJpeg then .error st
    else
      if orc i .savePdf then .error { st with tempJpeg := true }
      else
        if orc i .getSize then .error { st with tempJpeg := true, tmpPdf := true }
        else if acceptCond cfg (mkAttempt cfg k) then
          .ok (finalizeFs { st with tempJpeg := true, tmpPdf := true })
        else compressRun orc cfg (i + 1) n (k + 1) { st with tempJpeg := true, tmpPdf := true }

/-! ## JSON-LD values (`json.loads` results)

`Not_JoAps-WD.py` scans `<script type="application/ld+json">` blocks for a
`JobPosting` object.  The decoded JSON values are modelled by `JVal`;
a script whose text is missing or fails `json.loads` is `none` (skipped). -/

inductive JVal where
  | null
  | boolean (b : Bool)
  | num (n : Int)
  | str (s : String)
  | arr (elems : List JVal)
  | obj (fields : List (String × JVal))

/-- Python truthiness of a decoded JSON value. -/
def JVal.truthy : JVal → Bool
  | .null => false
  | .boolean b => b
  | .num n => n ≠ 0
  | .str s => s ≠ ""
  | .arr xs => !xs.isEmpty
  | .obj kvs => !kvs.isEmpty

/-- `v == "someString"` in Python (`True` only for an equal string). -/
def JVal.beqStr (v : JVal) (s : String) : Bool :=
  match v with
  | .str t => t = s
  | _ => false

/-- `dict.get(key)`: `None` when absent; duplicate keys in a JSON text keep
the last occurrence, as `json.loads` does. -/
def jget (kvs : List (String × JVal)) (key : String) : Option JVal :=
  match kvs.reverse.find? (fun p => p.1 == key) with
  | some p => some p.2
  | none => none

/-- Truthiness of `dict.get(key)` (`None` and JSON `null` are both falsy). -/
def jtruthy : Option JVal → Bool
  | some v => v.truthy
  | none => false

/-- `try_extract_jobposting_from_obj(obj)`.  `Except.error ()` models the
`AttributeError` raised by `(obj.get("identifier") or {}).get("name")` when
`identifier` is truthy but not a dict; `ok none` is Python `None`
(not a dict, or not tagged `JobPosting`); `ok (some (jt, comp))` is the
returned pair of optional stripped strings. -/
def tryExtractJP (j : JVal) : Except Unit (Option (Option String × Option String)) :=
  match j with
  | .obj kvs =>
    let t := jget kvs "@type"
    let is_job : Bool :=
      match t with
      | some (.arr xs) => xs.any (fun v => v.beqStr "JobPosting")
      | some v => v.beqStr "JobPosting"
      | none => false
    if is_job then
      match
        (if jtruthy (jget kvs "title") then Except.ok (jget kvs "title")
         else if jtruthy (jget kvs "identifier") then
           match jget kvs "identifier" with
           | some (.obj ikvs) => Except.ok (jget ikvs "name")
           | _ => Except.error ()
         else Except.ok none : Except Unit (Option JVal)) with
      | .error e => .error e
      | .ok jtRaw =>
        let jt : Option String :=
          match jtRaw with
          | some (.str s) => some (sTrim s)
          | _ => none
        let comp : Option String :=
          match jget kvs "hiringOrganization" with
          | some (.obj okvs) =>
            match jget okvs "name" with
            | some (.str s) => some (sTrim s)
            | _ => none
          | _ => none
        .ok (some (jt, comp))
    else .ok none
  | _ => .ok none

/-- `for item in data: candidate = try_extract(...); if candidate: break`
(a returned pair is a truthy tuple, even `(None, None)`). -/
def firstCand : List JVal → Except Unit (Option (Option String × Option String))
  | [] => .ok none
  | x :: rest =>
    match tryExtractJP x with
    | .error e => .error e
    | .ok (some p) => .ok (some p)
    | .ok none => firstCand rest

/-- The whole JSON-LD scanning loop of `Not_JoAps-WD.py`: skip scripts whose
text is missing or fails `json.loads`; on a list, scan its items; stop at the
first script yielding a candidate; the surrounding `try`/`except` turns any
exception into an aborted scan with nothing assigned. -/
def scanLd : List (Option JVal) → Option (Option String × Option String)
  | [] => none
  | none :: rest => scanLd rest
  | some j :: rest =>
    match
      (match j with
       | .arr items => firstCand items
       | _ => tryExtractJP j) with
    | .error _ => none
    | .ok (some p) => some p
    | .ok none => scanLd rest

/-- The per-script candidate extraction of the scanning loop: a decoded JSON
list is scanned item by item, any other value goes through
`try_extract_jobposting_from_obj` directly.  (`scanLd` inlines this match;
the definitions agree definitionally.) -/
def scriptCand (j : JVal) : Except Unit (Option (Option String × Option String)) :=
  match j with
  | .arr items => firstCand items
  | _ => tryExtractJP j

/-! ## The extraction cascade (`extract_job_info_from_html`)

The parsed HTML document is a `Soup`: exactly the query results the two
extractors read.  The empty string encodes "no such element / attribute /
text", which matches the code because every read is guarded by Python
truthiness.  `selHit attr pattern` is the stripped text of the first element
whose attribute `attr` matches `pattern` case-insensitively
(`soup.find(attrs={attr: re.compile(value, re.I)})`). -/

structure Soup where
  ogTitle : String
  titleString : String
  h1Text : String
  selHit : String → String → String
  ogSiteName : String
  hiringOrgName : String
  ldJson : List (Option JVal)

/-- The `possible_title_selectors` list (identical in both files). -/
def titleSelectors : List (String × String) :=
  [("data-qa", "job-title"), ("class", "job-title"), ("class", "posting-headline"),
   ("class", "job-header-title"), ("class", "job-title-text")]

/-- The `possible_company_selectors` list (`Not_JoAps.py` only). -/
def companySelectors : List (String × String) :=
  [("data-qa", "company-name"), ("class", "company-name"),
   ("class", "posting-company"), ("class", "job-header-company")]

/-- The selector loop: first selector whose element exists with non-empty
stripped text wins; an element with empty text moves on to the next selector. -/
def firstHit (f : String → String → String) : List (String × String) → String
  | [] => ""
  | (a, p) :: rest => if f a p ≠ "" then f a p else firstHit f rest

/-- `title_text`: og:title content if present and truthy, else the `<title>`
string if present and truthy, stripped (identical in both files). -/
def resolveTitleText (soup : Soup) : String :=
  if soup.ogTitle ≠ "" then sTrim soup.ogTitle
  else if soup.titleString ≠ "" then sTrim soup.titleString
  else ""

/-- The `<title>` fallback for the job title: cut at the first `" - "`, then
at the first `"|"`, then strip (identical in both files). -/
def titleHeuristic (tt : String) : String :=
  sTrim
    (if sContainsP (if sContainsP tt " - " then beforeFirst tt " - " else tt) "|"
     then beforeFirst (if sContainsP tt " - " then beforeFirst tt " - " else tt) "|"
     else if sContainsP tt " - " then beforeFirst tt " - " else tt)

/-- The generic job-title cascade `<h1>` → ATS selectors → title heuristics
(identical in both files; in `Not_JoAps-WD.py` it runs only when the JSON-LD
scan produced no title). -/
def genericJobTitle (soup : Soup) : String :=
  if soup.h1Text ≠ "" then soup.h1Text
  else if firstHit soup.selHit titleSelectors ≠ "" then firstHit soup.selHit titleSelectors
  else if resolveTitleText soup ≠ "" then titleHeuristic (resolveTitleText soup)
  else ""

/-- The word-character class of `re` `\b` boundaries (ASCII). -/
def isWordChar (c : Char) : Bool := c.isAlphanum || c == '_'

/-- Maximal runs of word / non-word characters. -/
def charRuns : List Char → List (List Char)
  | [] => []
  | c :: cs =>
    match charRuns cs with
    | [] => [[c]]
    | r :: rest =>
      if isWordChar c == isWordChar (r.headD c) then (c :: r) :: rest
      else [c] :: r :: rest

/-- The words deleted by `re.sub(r"\b(Careers?|Jobs?|Hiring)\b", "", ..., re.I)`.
Since the alternatives consist purely of word characters, a match is exactly a
maximal word run equal (case-insensitively) to one of them. -/
def suffixWords : List String := ["careers", "career", "jobs", "job", "hiring"]

/-- `re.sub(r"\b(Careers?|Jobs?|Hiring)\b", "", s, flags=re.IGNORECASE)`. -/
def removeSuffixWords (s : String) : String :=
  String.mk
    (((charRuns s.data).filter
      (fun r => !(suffixWords.contains (String.mk (r.map Char.toLower))))).flatten)

/-- Company step "part after the last `|` of the title": strip it, delete the
suffix words, strip `" -|"`, and accept if non-empty (identical in both files). -/
def companyFromPipe (company tt : String) : String :=
  if company = "" ∧ tt ≠ "" ∧ sContainsP tt "|" then
    if stripSet (removeSuffixWords (sTrim (lastPart tt "|"))) [' ', '-', '|'] ≠ ""
    then stripSet (removeSuffixWords (sTrim (lastPart tt "|"))) [' ', '-', '|']
    else company
  else company

/-- Company step `"Role at Company"`: text after the first `" at "`, cut at
`"|"`, strip `" -|"`, accept if non-empty (identical in both files). -/
def companyFromAt (company tt : String) : String :=
  if tt ≠ "" ∧ sContainsP tt " at " ∧ company = "" then
    if stripSet (beforeFirst (afterFirst tt " at ") "|") [' ', '-', '|'] ≠ ""
    then stripSet (beforeFirst (afterFirst tt " at ") "|") [' ', '-', '|']
    else company
  else company

/-- The hostname-derived fallback label: split the (already `www.`-stripped)
host on dots, take the second-to-last label if at least two exist, else the
first (the list from `split` is never empty, so the `"Unknown"` arm of the
source is dead code, kept for fidelity). -/
def hostBase (host : String) : String :=
  if 2 ≤ (sSplit host ".").length then (sSplit host ".").getD ((sSplit host ".").length - 2) ""
  else if sSplit host "." ≠ [] then (sSplit host ".").headD ""
  else "Unknown"

/-- Company cascade step 1 of `Not_JoAps.py`: og:site_name content, stripped
(unguarded first assignment; may assign the empty string). -/
def companyStep1 (soup : Soup) : String :=
  if soup.ogSiteName ≠ "" then sTrim soup.ogSiteName else ""

/-- Company step "schema.org hiringOrganization name" (both files), guarded by
`if not company`. -/
def companyStep2 (soup : Soup) (c : String) : String :=
  if c = "" ∧ soup.hiringOrgName ≠ "" then soup.hiringOrgName else c

/-- Company step "ATS company-name selectors" (`Not_JoAps.py` only). -/
def companyStep3 (soup : Soup) (c : String) : String :=
  if c = "" then firstHit soup.selHit companySelectors else c

/-- The og:site_name step of `Not_JoAps-WD.py`, guarded by `if not company`. -/
def wdOgStep (soup : Soup) (c : String) : String :=
  if c = "" ∧ soup.ogSiteName ≠ "" then sTrim soup.ogSiteName else c

/-- The terminal hostname fallback for the company (both files): applied to
the `www.`-stripped host. -/
def companyStep6Host (host : String) (company : String) : String :=
  if company = "" then pyCapitalize (hostBase (sReplace host "www." "")) else company

namespace NotJoAps

/-- The company cascade of `Not_JoAps.py`: og:site_name → schema.org
`hiringOrganization` → ATS company selectors → after-last-`|` → `" at "` →
hostname fallback (`host = urlparse(url).hostname or ""`). -/
def companyCascade (soup : Soup) (hostname : Option String) : String :=
  companyStep6Host (pyOrStr hostname "")
    (companyFromAt
      (companyFromPipe (companyStep3 soup (companyStep2 soup (companyStep1 soup)))
        (resolveTitleText soup))
      (resolveTitleText soup))

/-- `extract_job_info_from_html` of `Not_JoAps.py`.  `hostname` is
`urlparse(url).hostname` (an external parse). -/
def extract_job_info_from_html (soup : Soup) (hostname : Option String) : String × String :=
  (if genericJobTitle soup = "" then "Job from " ++ pyOrStr hostname "Unknown"
   else genericJobTitle soup,
   companyCascade soup hostname)

end NotJoAps

namespace NotJoApsWD

/-- The JSON-LD assignments `if jt: job_title = jt` / `if comp: company = comp`. -/
def scanPair (soup : Soup) : String × String :=
  match scanLd soup.ldJson with
  | some (jt, comp) => (pyOrStr jt "", pyOrStr comp "")
  | none => ("", "")

/-- The Workday host→brand rule: first dot label of the `www.`-stripped host,
hyphens to spaces, each word capitalized; an empty first label leaves the
company unchanged. -/
def workdayBrand (host fallback : String) : String :=
  if (sSplit (sReplace host "www." "") ".").headD "" ≠ "" then
    sJoin " "
      (((sSplit (sReplace ((sSplit (sReplace host "www." "") ".").headD "") "-" " ") " ").filter
        (fun w => w ≠ "")).map pyCapitalize)
  else fallback

/-- The company fallback chain of `Not_JoAps-WD.py` (run after JSON-LD and
the Workday brand rule, starting from their result `c0`): og:site_name →
hiringOrganization → after-last-`|` → `" at "` → hostname fallback.
`host` is the lowered hostname. -/
def companyCascade (soup : Soup) (host : String) (c0 : String) : String :=
  companyStep6Host host
    (companyFromAt
      (companyFromPipe (companyStep2 soup (wdOgStep soup c0)) (resolveTitleText soup))
      (resolveTitleText soup))

/-- The job-title resolution of `Not_JoAps-WD.py`: JSON-LD title if any, else
the generic cascade, else `"Job from {hostname}"` (with the lowered host). -/
def wdTitle (soup : Soup) (host : String) : String :=
  if (if (scanPair soup).1 = "" then genericJobTitle soup else (scanPair soup).1) = ""
  then "Job from " ++ (if host ≠ "" then host else "Unknown")
  else (if (scanPair soup).1 = "" then genericJobTitle soup else (scanPair soup).1)

/-- `extract_job_info_from_html` of `Not_JoAps-WD.py`:
`hostname = (parsed_url.hostname or "").lower()`, JSON-LD `JobPosting` scan,
Workday host→brand pre-emption, then the generic fallbacks. -/
def extract_job_info_from_html (soup : Soup) (hostname : Option String) : String × String :=
  (wdTitle soup (sToLower (pyOrStr hostname "")),
   companyCascade soup (sToLower (pyOrStr hostname ""))
     (if sContainsP (sToLower (pyOrStr hostname "")) "myworkdayjobs.com"
      then workdayBrand (sToLower (pyOrStr hostname "")) (scanPair soup).2
      else (scanPair soup).2))

end NotJoApsWD

/-! ## Concrete inputs used by counterexamples and witnesses -/

/-- A document with no extractable signal at all. -/
def emptySoup : Soup :=
  ⟨"", "", "", fun _ _ => "", "", "", []⟩

/-- A document carrying both a structured `JobPosting` title and a
different `<h1>` heading. -/
def structuredVsHeadingSoup : Soup :=
  ⟨"", "", "Heading Title", fun _ _ => "", "", "",
   [some (JVal.obj [("@type", JVal.str "JobPosting"), ("title", JVal.str "Structured Title")])]⟩

/-- A document whose JSON-LD sequence holds an unparseable script, then a
non-job-posting block, then the job-posting block — and a different `<h1>`
heading. -/
def precededStructuredSoup : Soup :=
  ⟨"", "", "Heading Title", fun _ _ => "", "", "",
   [none,
    some (JVal.obj [("@type", JVal.str "WebPage")]),
    some (JVal.obj [("@type", JVal.str "JobPosting"), ("title", JVal.str "Structured Title")])]⟩

/-- A document whose only signal is the page title
`"Senior Engineer at Acme | Careers"`. -/
def atPatternSoup : Soup :=
  ⟨"Senior Engineer at Acme | Careers", "", "", fun _ _ => "", "", "", []⟩

/-- A document with a structured hiring-organization name, used to show the
Workday hostname rule pre-empts it. -/
def workdaySoup : Soup :=
  ⟨"", "", "", fun _ _ => "", "", "SomeOtherCo",
   [some (JVal.obj [("@type", JVal.str "JobPosting"),
                    ("hiringOrganization", JVal.obj [("name", JVal.str "SomeOtherCo")])])]⟩

/-- A 400×400 bitmap (narrower than `min_width`) and a tiny budget. -/
def narrowCfg : CompressCfg :=
  ⟨400, 400, 0, fun _ => 1⟩

/-- A 1000×1000 bitmap whose encoder produces LARGER files as the resample
target shrinks (`10000 - width` bytes) with a zero budget. -/
def growingCfg : CompressCfg :=
  ⟨1000, 1000, 0, fun d => 10000 - d.1⟩

/-- A 1000×1000 bitmap with a constant-size encoder and zero budget. -/
def constCfg : CompressCfg :=
  ⟨1000, 1000, 0, fun _ => 5⟩

/-- A 1000×1000 bitmap with a constant-size encoder and a huge budget
(first attempt accepted). -/
def easyCfg : CompressCfg :=
  ⟨1000, 1000, 1000000, fun _ => 5⟩

/-- An oracle that raises at the `resize` call of the second iteration. -/
def raiseOrc : ℕ → CStep → Bool :=
  fun i s => i == 1 && (match s with | .resize => true | _ => false)

/-- An oracle under which no library call ever raises. -/
def quietOrc : ℕ → CStep → Bool := fun _ _ => false

/-! ### Bridging lemmas: the integer embedding matches the float formulas -/

/-- `scaledDim` is the real-valued `int(n * 0.8 ^ k)` of the source. -/
theorem scaledDim_eq_floor (n k : ℕ) :
    scaledDim n k = ⌊(n : ℚ) * ((4 : ℚ) / 5) ^ k⌋₊ := by
  unfold scaledDim
  rw [div_pow, mul_div_assoc']
  have h5 : ((5 : ℚ) ^ k) = ((5 ^ k : ℕ) : ℚ) := by push_cast; ring
  rw [h5, Nat.floor_div_nat ((n : ℚ) * (4 : ℚ) ^ k) (5 ^ k)]
  have h4 : ((n : ℚ) * (4 : ℚ) ^ k) = ((n * 4 ^ k : ℕ) : ℚ) := by push_cast; ring
  rw [h4, Nat.floor_natCast]

/-- The integer acceptance inequality is the source's `scale <= 0.4`. -/
theorem scaleCond_iff (k : ℕ) :
    5 * 4 ^ k ≤ 2 * 5 ^ k ↔ ((4 : ℚ) / 5) ^ k ≤ 2 / 5 := by
  rw [div_pow, div_le_div_iff₀ (by positivity) (by norm_num)]
  constructor
  · intro h
    have h2 : ((5 * 4 ^ k : ℕ) : ℚ) ≤ ((2 * 5 ^ k : ℕ) : ℚ) := by exact_mod_cast h
    push_cast at h2
    linarith
  · intro h
    have h2 : ((5 * 4 ^ k : ℕ) : ℚ) ≤ ((2 * 5 ^ k : ℕ) : ℚ) := by push_cast; linarith
    exact_mod_cast h2

/-! ### Structure of the attempt list and the outcome -/

theorem compressAttempts_length_le (cfg : CompressCfg) :
    ∀ n k, (compressAttempts cfg n k).length ≤ n := by
  intro n
  induction n with
  | zero => intro k; simp [compressAttempts]
  | succ m ih =>
    intro k
    unfold compressAttempts
    split
    · simp
    · simpa using ih (k + 1)

theorem compressAttempts_ne_nil (cfg : CompressCfg) (n k : ℕ) (h : n ≠ 0) :
    compressAttempts cfg n k ≠ [] := by
  cases n with
  | zero => exact absurd rfl h
  | succ m =>
    unfold compressAttempts
    split <;> simp

/-- Every attempt in the list is the attempt at its own index (scale starts
at `1.0` and is multiplied by `0.8` once per failed attempt). -/
theorem compressAttempts_get? (cfg : CompressCfg) :
    ∀ n k i, i < (compressAttempts cfg n k).length →
      (compressAttempts cfg n k).get? i = some (mkAttempt cfg (k + i)) := by
  intro n
  induction n with
  | zero => intro k i h; simp [compressAttempts] at h
  | succ m ih =>
    intro k i h
    by_cases ha : acceptCond cfg (mkAttempt cfg k)
    · have heq : compressAttempts cfg (m + 1) k = [mkAttempt cfg k] := by
        rw [compressAttempts_succ, if_pos ha]
      rw [heq] at h ⊢
      simp at h
      subst h
      simp
    · have heq : compressAttempts cfg (m + 1) k
          = mkAttempt cfg k :: compressAttempts cfg m (k + 1) := by
        rw [compressAttempts_succ, if_neg ha]
      rw [heq] at h ⊢
      cases i with
      | zero => simp
      | succ j =>
        simp only [List.length_cons] at h
        have hj : j < (compressAttempts cfg m (k + 1)).length := by omega
        have := ih (k + 1) j hj
        simp only [List.get?_cons_succ]
        rw [this]
        congr 2
        omega

/-- Every attempt except the last one failed the acceptance test. -/
theorem compressAttempts_not_accept (cfg : CompressCfg) :
    ∀ n k i, i + 1 < (compressAttempts cfg n k).length →
      ¬ acceptCond cfg (mkAttempt cfg (k + i)) := by
  intro n
  induction n with
  | zero => intro k i h; simp [compressAttempts] at h
  | succ m ih =>
    intro k i hlt
    by_cases ha : acceptCond cfg (mkAttempt cfg k)
    · have heq : compressAttempts cfg (m + 1) k = [mkAttempt cfg k] := by
        rw [compressAttempts_succ, if_pos ha]
      rw [heq] at hlt
      simp at hlt
    · have heq : compressAttempts cfg (m + 1) k
          = mkAttempt cfg k :: compressAttempts cfg m (k + 1) := by
        rw [compressAttempts_succ, if_neg ha]
      rw [heq] at hlt
      cases i with
      | zero => simpa using ha
      | succ j =>
        simp only [List.length_cons] at hlt
        have := ih (k + 1) j (by omega)
        have harith : k + 1 + j = k + (j + 1) := by omega
        rw [harith] at this
        exact this

theorem getLastD_cons_eq {α : Type} (a : α) (l : List α) (d : α) :
    (a :: l).getLastD d = l.getLastD a := by
  cases l <;> rfl

theorem getLastD_irrel {α : Type} (l : List α) (d d' : α) (h : l ≠ []) :
    l.getLastD d = l.getLastD d' := by
  cases l with
  | nil => exact absurd rfl h
  | cons x xs =>
    rw [getLastD_cons_eq, getLastD_cons_eq]

/-- The outcome of the loop is decided by the acceptance test on the last
attempt performed: accepted in-loop if it passes, otherwise the post-loop
fallback moves that same last attempt. -/
theorem compressGo_eq (cfg : CompressCfg) :
    ∀ n k, n ≠ 0 →
      compressGo cfg n k =
        (if acceptCond cfg ((compressAttempts cfg n k).getLastD (mkAttempt cfg k))
         then .accepted ((compressAttempts cfg n k).getLastD (mkAttempt cfg k))
         else .exhausted ((compressAttempts cfg n k).getLastD (mkAttempt cfg k))) := by
  intro n
  induction n with
  | zero => intro k h; exact absurd rfl h
  | succ m ih =>
    intro k _
    by_cases ha : acceptCond cfg (mkAttempt cfg k)
    · cases m with
      | zero =>
        unfold compressGo compressAttempts
        rw [if_pos ha, if_pos ha]
        simp [List.getLastD, if_pos ha]
      | succ p =>
        unfold compressGo compressAttempts
        rw [if_pos ha, if_pos ha]
        simp [List.getLastD, if_pos ha]
    · cases m with
      | zero =>
        unfold compressGo compressAttempts
        rw [if_neg ha, if_neg ha]
        simp only [compressAttempts]
        rw [getLastD_cons_eq]
        simp [List.getLastD, if_neg ha]
      | succ p =>
        unfold compressGo compressAttempts
        rw [if_neg ha, if_neg ha]
        have hm : p + 1 ≠ 0 := by omega
        rw [ih (k + 1) hm]
        rw [getLastD_cons_eq]
        have hne : compressAttempts cfg (p + 1) (k + 1) ≠ [] :=
          compressAttempts_ne_nil cfg (p + 1) (k + 1) hm
        rw [getLastD_irrel _ (mkAttempt cfg k) (mkAttempt cfg (k + 1)) hne]

/-- If the scale floor is reached at relative attempt `m < n`, the loop
returns `accepted` by attempt `k + m`. -/
theorem compressGo_accepts (cfg : CompressCfg) :
    ∀ n k m, m < n → 5 * 4 ^ (k + m) ≤ 2 * 5 ^ (k + m) →
      ∃ a, compressGo cfg n k = .accepted a ∧ a.k ≤ k + m := by
  intro n
  induction n with
  | zero => intro k m hm; omega
  | succ q ih =>
    intro k m hm hsc
    by_cases ha : acceptCond cfg (mkAttempt cfg k)
    · refine ⟨mkAttempt cfg k, ?_, ?_⟩
      · cases q with
        | zero => unfold compressGo; rw [if_pos ha]
        | succ p => unfold compressGo; rw [if_pos ha]
      · show k ≤ k + m
        omega
    · have hm0 : m ≠ 0 := by
        intro h0
        subst h0
        exact ha (Or.inr (by simpa using hsc))
      cases q with
      | zero =>
        omega
      | succ p =>
        obtain ⟨m', rfl⟩ : ∃ m', m = m' + 1 := ⟨m - 1, by omega⟩
        have := ih (k + 1) m' (by omega)
          (by rw [show k + 1 + m' = k + (m' + 1) by omega]; exact hsc)
        obtain ⟨a, hgo, hak⟩ := this
        refine ⟨a, ?_, by omega⟩
        unfold compressGo
        rw [if_neg ha]
        exact hgo

/-- If the scale floor is reached at relative attempt `m` and the loop has at
least `m + 1` iterations available, at most `m + 1` attempts happen. -/
theorem compressAttempts_length_le_of (cfg : CompressCfg) :
    ∀ m n k, m + 1 ≤ n → 5 * 4 ^ (k + m) ≤ 2 * 5 ^ (k + m) →
      (compressAttempts cfg n k).length ≤ m + 1 := by
  intro m
  induction m with
  | zero =>
    intro n k hn hsc
    cases n with
    | zero => omega
    | succ q =>
      have hacc : acceptCond cfg (mkAttempt cfg k) := by
        refine Or.inr ?_
        have hk : (mkAttempt cfg k).k = k := rfl
        rw [hk]
        simpa using hsc
      unfold compressAttempts
      rw [if_pos hacc]
      simp
  | succ m' ih =>
    intro n k hn hsc
    cases n with
    | zero => omega
    | succ q =>
      unfold compressAttempts
      split
      · simp
      · have := ih q (k + 1) (by omega)
          (by rw [show k + 1 + m' = k + (m' + 1) by omega]; exact hsc)
        simp only [List.length_cons]
        omega

/-! ### Equation lemmas for `compressRun` -/

theorem compressRun_zero (orc : ℕ → CStep → Bool) (cfg : CompressCfg)
    (i k : ℕ) (st : FsState) :
    compressRun orc cfg i 0 k st = .ok (finalizeFs st) := rfl

theorem compressRun_succ (orc : ℕ → CStep → Bool) (cfg : CompressCfg)
    (i n k : ℕ) (st : FsState) :
    compressRun orc cfg i (n + 1) k st =
      (if orc i .resize then .error st
       else if orc i .saveJpeg then .error st
       else
        if orc i .savePdf then .error { st with tempJpeg := true }
        else
          if orc i .getSize then .error { st with tempJpeg := true, tmpPdf := true }
          else if acceptCond cfg (mkAttempt cfg k) then
            .ok (finalizeFs { st with tempJpeg := true, tmpPdf := true })
          else compressRun orc cfg (i + 1) n (k + 1) { st with tempJpeg := true, tmpPdf := true }) :=
  rfl

/-! ### Helper lemmas for the extraction cascade -/

theorem jobFrom_ne_empty (s : String) : ("Job from " ++ s) ≠ "" := by
  intro he
  have h2 := congrArg String.data he
  rw [String.data_append] at h2
  exact absurd (List.append_eq_nil.mp h2).1 (by decide)

theorem pyCapitalize_ne_empty (s : String) (h : s ≠ "") : pyCapitalize s ≠ "" := by
  intro he
  unfold pyCapitalize at he
  cases hs : s.data with
  | nil =>
    apply h
    apply String.ext
    rw [hs]
  | cons c cs =>
    rw [hs] at he
    have := congrArg String.data he
    simp at this

theorem companyFromPipe_of_ne (c tt : String) (h : c ≠ "") : companyFromPipe c tt = c := by
  unfold companyFromPipe
  rw [if_neg]
  intro hcon
  exact h hcon.1

theorem companyFromAt_of_ne (c tt : String) (h : c ≠ "") : companyFromAt c tt = c := by
  unfold companyFromAt
  rw [if_neg]
  intro hcon
  exact h hcon.2.2

theorem companyStep2_of_ne (soup : Soup) (c : String) (h : c ≠ "") :
    companyStep2 soup c = c := by
  unfold companyStep2
  rw [if_neg]
  intro hcon
  exact h hcon.1

theorem wdOgStep_of_ne (soup : Soup) (c : String) (h : c ≠ "") :
    wdOgStep soup c = c := by
  unfold wdOgStep
  rw [if_neg]
  intro hcon
  exact h hcon.1

theorem companyStep6Host_of_ne (host c : String) (h : c ≠ "") :
    companyStep6Host host c = c := by
  unfold companyStep6Host
  rw [if_neg h]

theorem genericJobTitle_eq_empty (soup : Soup)
    (h1 : soup.h1Text = "") (h2 : firstHit soup.selHit titleSelectors = "")
    (h3 : resolveTitleText soup = "") : genericJobTitle soup = "" := by
  unfold genericJobTitle
  rw [h1, h2, h3]
  simp

/-! ## The claims -/

/-- C2: `compress_png_to_pdf_under_size` makes at most `maxAttempts = 7`
attempts; the attempt at index `i` uses scale `0.8 ^ i` (scale starts at
`1.0` and is multiplied by `0.8` after each failed attempt); every
non-final attempt failed the acceptance test `size <= max_bytes or
scale <= 0.4`; if the final attempt passes the test the function stops with
it (in-loop `return`), and if the loop exhausts all attempts without
meeting the test, that last produced attempt is returned anyway
(post-loop best-effort move), never an error. -/
theorem c2_compress_loop (cfg : CompressCfg) :
    (compressAttempts cfg 7 0).length ≤ 7 ∧
    (∀ i, i < (compressAttempts cfg 7 0).length →
      (compressAttempts cfg 7 0).get? i = some (mkAttempt cfg i)) ∧
    (∀ i, i + 1 < (compressAttempts cfg 7 0).length → ¬ acceptCond cfg (mkAttempt cfg i)) ∧
    (acceptCond cfg ((compressAttempts cfg 7 0).getLastD (mkAttempt cfg 0)) →
      compress_png_to_pdf_under_size cfg
        = .accepted ((compressAttempts cfg 7 0).getLastD (mkAttempt cfg 0))) ∧
    (¬ acceptCond cfg ((compressAttempts cfg 7 0).getLastD (mkAttempt cfg 0)) →
      compress_png_to_pdf_under_size cfg
        = .exhausted ((compressAttempts cfg 7 0).getLastD (mkAttempt cfg 0))) := by
  refine ⟨compressAttempts_length_le cfg 7 0, ?_, ?_, ?_, ?_⟩
  · intro i hi
    simpa using compressAttempts_get? cfg 7 0 i hi
  · intro i hi
    simpa using compressAttempts_not_accept cfg 7 0 i hi
  · intro hacc
    unfold compress_png_to_pdf_under_size
    rw [compressGo_eq cfg 7 0 (by omega), if_pos hacc]
  · intro hacc
    unfold compress_png_to_pdf_under_size
    rw [compressGo_eq cfg 7 0 (by omega), if_neg hacc]

/-- Witness for C2 at a concrete configuration whose first attempt is
accepted. -/
theorem c2_witness :
    (compressAttempts easyCfg 7 0).length ≤ 7 ∧
    (compressAttempts easyCfg 7 0).get? 0 = some (mkAttempt easyCfg 0) ∧
    compress_png_to_pdf_under_size easyCfg
      = .accepted ((compressAttempts easyCfg 7 0).getLastD (mkAttempt easyCfg 0)) :=
  ⟨(c2_compress_loop easyCfg).1,
   (c2_compress_loop easyCfg).2.1 0 (by decide),
   (c2_compress_loop easyCfg).2.2.2.1 (by decide)⟩

/-- C10: for every input the loop exits through the in-loop acceptance test
within at most 6 attempts — on the 6th attempt (index 5) the scale is
`0.8 ^ 5 = 0.32768 ≤ 0.4` — so the post-loop attempt-exhaustion fallback
branch is unreachable. -/
theorem c10_loop_exits_within_six (cfg : CompressCfg) :
    (∃ a, compress_png_to_pdf_under_size cfg = .accepted a ∧ a.k ≤ 5) ∧
    (compressAttempts cfg 7 0).length ≤ 6 ∧
    ((4 : ℚ) / 5) ^ 5 ≤ 2 / 5 ∧
    (∀ a, compress_png_to_pdf_under_size cfg ≠ .exhausted a) := by
  obtain ⟨a, ha, hk⟩ := compressGo_accepts cfg 7 0 5 (by omega) (by decide)
  have ha' : compress_png_to_pdf_under_size cfg = .accepted a := ha
  refine ⟨⟨a, ha', by simpa using hk⟩, ?_, ?_, ?_⟩
  · simpa using compressAttempts_length_le_of cfg 5 7 0 (by omega) (by decide)
  · rw [← scaleCond_iff]
    decide
  · intro b hb
    rw [ha'] at hb
    simp at hb

/-- Witness for C10 at a concrete configuration that never meets the byte
budget (encoder sizes grow as the bitmap shrinks): the call still returns
`accepted`, after exactly 6 attempts. -/
theorem c10_witness :
    (∃ a, compress_png_to_pdf_under_size growingCfg = .accepted a) ∧
    (compressAttempts growingCfg 7 0).length ≤ 6 := by
  obtain ⟨⟨a, ha, _⟩, hlen, _, _⟩ := c10_loop_exits_within_six growingCfg
  exact ⟨⟨a, ha⟩, hlen⟩

/-- C5 counterexample: for a 400×400 bitmap at `scale = 1.0` the first
attempt's resample target is `(800, 400)` — the width is clamped to
`min_width` but the height is computed from the raw scale, so the original
1:1 aspect ratio is NOT preserved (`height * target_w ≠ width * target_h`),
contradicting the claim that the target height is scaled proportionally. -/
theorem c5_counterexample :
    (compressAttempts narrowCfg 7 0).get? 0 = some ⟨0, (800, 400), 1⟩ ∧
    narrowCfg.width = 400 ∧ narrowCfg.height = 400 ∧
    narrowCfg.height * 800 ≠ narrowCfg.width * 400 := by decide

/-- C5 (amended): on every attempt of the loop,
`targetWidth = max(minWidthPixels, ⌊originalWidth * scale⌋)` (Python `int`
truncation, not `round`) and `targetHeight = ⌊originalHeight * scale⌋`,
computed from the raw scale independently of the width clamp (so the aspect
ratio is preserved only up to truncation while the clamp is inactive, and is
distorted when it engages); the width is clamped to `minWidthPixels = 800`
and never shrinks below that floor on any attempt. -/
theorem c5_target_dims_amended (cfg : CompressCfg) (a : Attempt)
    (ha : a ∈ compressAttempts cfg 7 0) :
    a.dims.1 = max min_width ⌊(cfg.width : ℚ) * ((4 : ℚ) / 5) ^ a.k⌋₊ ∧
    a.dims.2 = ⌊(cfg.height : ℚ) * ((4 : ℚ) / 5) ^ a.k⌋₊ ∧
    min_width ≤ a.dims.1 := by
  obtain ⟨i, hi⟩ := List.mem_iff_get?.mp ha
  have hlen : i < (compressAttempts cfg 7 0).length := by
    by_contra hcon
    rw [List.get?_eq_none.mpr (by omega)] at hi
    exact absurd hi (by simp)
  have h2 := compressAttempts_get? cfg 7 0 i hlen
  rw [h2] at hi
  injection hi with hi2
  subst hi2
  refine ⟨?_, ?_, ?_⟩
  · show (max min_width (scaledDim cfg.width (0 + i))) = _
    rw [scaledDim_eq_floor]
    rfl
  · show scaledDim cfg.height (0 + i) = _
    rw [scaledDim_eq_floor]
    rfl
  · exact le_max_left _ _

/-- Witness for C5 (amended) at the first attempt of a concrete run. -/
theorem c5_witness :
    ((⟨0, (1000, 1000), 5⟩ : Attempt).dims.1
      = max min_width ⌊(constCfg.width : ℚ) * ((4 : ℚ) / 5) ^ (⟨0, (1000, 1000), 5⟩ : Attempt).k⌋₊) ∧
    ((⟨0, (1000, 1000), 5⟩ : Attempt).dims.2
      = ⌊(constCfg.height : ℚ) * ((4 : ℚ) / 5) ^ (⟨0, (1000, 1000), 5⟩ : Attempt).k⌋₊) ∧
    min_width ≤ (⟨0, (1000, 1000), 5⟩ : Attempt).dims.1 :=
  c5_target_dims_amended constCfg ⟨0, (1000, 1000), 5⟩ (by decide)

/-- C8 counterexample: with a size oracle that reports larger files for
smaller resample targets (possible in principle with lossy re-encoding), a
run satisfying `minWidthPixels ≤ originalWidth` produces attempt sizes
9000 then 9200 — the byte size is NOT non-increasing across successive
attempts; the code imposes no such monotonicity. -/
theorem c8_counterexample :
    min_width ≤ growingCfg.width ∧
    (compressAttempts growingCfg 7 0).get? 0 = some ⟨0, (1000, 1000), 9000⟩ ∧
    (compressAttempts growingCfg 7 0).get? 1 = some ⟨1, (800, 800), 9200⟩ ∧
    ¬ ((9200 : ℕ) ≤ 9000) := by decide

/-- C8 (amended): for every bitmap and budget with
`minWidthPixels ≤ originalWidth`, the loop terminates within
`maxAttempts = 7` iterations, and — provided the encoder's byte size is
monotone in the resample scale (size at a smaller scale ≤ size at a larger
scale) — the byte size of the produced document is non-increasing across
successive attempts. -/
theorem c8_termination_monotone_amended (cfg : CompressCfg)
    (_hw : min_width ≤ cfg.width)
    (hmono : ∀ k j, k ≤ j →
      cfg.sizeAt (targetDims cfg.width cfg.height j)
        ≤ cfg.sizeAt (targetDims cfg.width cfg.height k)) :
    (compressAttempts cfg 7 0).length ≤ 7 ∧
    (∀ i j, i ≤ j → j < (compressAttempts cfg 7 0).length →
      ∀ ai aj, (compressAttempts cfg 7 0).get? i = some ai →
        (compressAttempts cfg 7 0).get? j = some aj → aj.size ≤ ai.size) := by
  refine ⟨compressAttempts_length_le cfg 7 0, ?_⟩
  intro i j hij hj ai aj hgi hgj
  have hi : i < (compressAttempts cfg 7 0).length := lt_of_le_of_lt hij hj
  rw [compressAttempts_get? cfg 7 0 i hi] at hgi
  rw [compressAttempts_get? cfg 7 0 j hj] at hgj
  injection hgi with hgi2
  injection hgj with hgj2
  subst hgi2
  subst hgj2
  show cfg.sizeAt (targetDims cfg.width cfg.height (0 + j))
      ≤ cfg.sizeAt (targetDims cfg.width cfg.height (0 + i))
  exact hmono (0 + i) (0 + j) (by omega)

/-- Witness for C8 (amended) at a configuration with a constant-size
encoder. -/
theorem c8_witness :
    (compressAttempts constCfg 7 0).length ≤ 7 ∧
    (⟨1, (800, 800), 5⟩ : Attempt).size ≤ (⟨0, (1000, 1000), 5⟩ : Attempt).size :=
  ⟨(c8_termination_monotone_amended constCfg (by decide) (fun _ _ _ => Nat.le_refl 5)).1,
   (c8_termination_monotone_amended constCfg (by decide) (fun _ _ _ => Nat.le_refl 5)).2
     0 1 (by decide) (by decide) ⟨0, (1000, 1000), 5⟩ ⟨1, (800, 800), 5⟩ (by decide) (by decide)⟩

/-- C7 counterexample: if an exception is raised inside the loop (here: the
resize call of the second iteration), the call exits with the temporary JPEG
and the scratch `.tmp` PDF still on disk — the function has no
`try`/`finally`, so intermediate artifacts are NOT removed on error exit
paths. -/
theorem c7_counterexample :
    compressRun raiseOrc growingCfg 0 7 0 ⟨false, false, false⟩
        = .error ⟨true, true, false⟩ ∧
    (⟨true, true, false⟩ : FsState).tempJpeg = true ∧
    (⟨true, true, false⟩ : FsState).tmpPdf = true ∧
    (⟨true, true, false⟩ : FsState).finalPdf = false :=
  ⟨rfl, rfl, rfl, rfl⟩

/-- C7 (amended): `compress_png_to_pdf_under_size` removes its intermediate
artifacts (the temporary JPEG and the scratch `.tmp` PDF) on both normal
exit paths — early success and attempt exhaustion — so that when the call
returns, only the final PDF (and the untouched original PNG) remain; on an
error exit (an exception raised inside the loop) the intermediates created
so far are left on disk. -/
theorem c7_cleanup_amended (orc : ℕ → CStep → Bool) (cfg : CompressCfg) :
    ∀ n i k st st', compressRun orc cfg i n k st = .ok st' →
      st'.tempJpeg = false ∧ st'.tmpPdf = false ∧ st'.finalPdf = true := by
  intro n
  induction n with
  | zero =>
    intro i k st st' h
    rw [compressRun_zero] at h
    injection h with h2
    subst h2
    exact ⟨rfl, rfl, rfl⟩
  | succ m ih =>
    intro i k st st' h
    rw [compressRun_succ] at h
    split_ifs at h
    all_goals try simp at h
    all_goals try (subst h; exact ⟨rfl, rfl, rfl⟩)
    all_goals exact ih (i + 1) (k + 1) _ st' h

/-- Witness for C7 (amended): a run with no exceptions; at exit only the
final PDF exists. -/
theorem c7_witness :
    (⟨false, false, true⟩ : FsState).tempJpeg = false ∧
    (⟨false, false, true⟩ : FsState).tmpPdf = false ∧
    (⟨false, false, true⟩ : FsState).finalPdf = true :=
  c7_cleanup_amended quietOrc easyCfg 7 0 0 ⟨false, false, false⟩ ⟨false, false, true⟩ rfl

/-! ### Projection lemmas for the two extractors -/

theorem pyOrStr_some_empty (s : String) : pyOrStr (some s) "" = s := by
  by_cases hs : s = ""
  · subst hs
    rfl
  · simp [pyOrStr, hs]

theorem plain_fst (soup : Soup) (h : Option String) :
    (NotJoAps.extract_job_info_from_html soup h).1
      = (if genericJobTitle soup = "" then "Job from " ++ pyOrStr h "Unknown"
         else genericJobTitle soup) := rfl

theorem plain_snd (soup : Soup) (h : Option String) :
    (NotJoAps.extract_job_info_from_html soup h).2 = NotJoAps.companyCascade soup h := rfl

theorem wd_fst (soup : Soup) (h : Option String) :
    (NotJoApsWD.extract_job_info_from_html soup h).1
      = NotJoApsWD.wdTitle soup (sToLower (pyOrStr h "")) := rfl

theorem wd_snd (soup : Soup) (h : Option String) :
    (NotJoApsWD.extract_job_info_from_html soup h).2
      = NotJoApsWD.companyCascade soup (sToLower (pyOrStr h ""))
          (if sContainsP (sToLower (pyOrStr h "")) "myworkdayjobs.com"
           then NotJoApsWD.workdayBrand (sToLower (pyOrStr h "")) (NotJoApsWD.scanPair soup).2
           else (NotJoApsWD.scanPair soup).2) := rfl

theorem plainCompanyCascade_ne (soup : Soup) (hostname : Option String)
    (hb : hostBase (sReplace (pyOrStr hostname "") "www." "") ≠ "") :
    NotJoAps.companyCascade soup hostname ≠ "" := by
  unfold NotJoAps.companyCascade companyStep6Host
  split
  · exact pyCapitalize_ne_empty _ hb
  · assumption

theorem wdCompanyCascade_ne (soup : Soup) (host c0 : String)
    (hb : hostBase (sReplace host "www." "") ≠ "") :
    NotJoApsWD.companyCascade soup host c0 ≠ "" := by
  unfold NotJoApsWD.companyCascade companyStep6Host
  split
  · exact pyCapitalize_ne_empty _ hb
  · assumption

/-- C1 counterexample: for an empty HTML document and a URL with no hostname
(`urlparse("").hostname is None`), the extractor of `Not_JoAps.py` returns
the EMPTY string as the company — `"".split(".") == [""]`, so the
capitalized fallback label is empty — refuting the claim that both fields
are always non-empty. -/
theorem c1_counterexample :
    (NotJoAps.extract_job_info_from_html emptySoup none).2 = "" := by decide

/-- C1 (amended): for every document and hostname, both extractors return
normally with a non-empty job title, falling back to
`"Job from {hostname}"` when no title source matches; the company falls
back to the capitalized hostname-derived label (strip `www.`, split on
dots, second-to-last label if at least two exist else the first), and is
non-empty provided that derived label is non-empty — for a URL with an
empty or degenerate hostname the company can be the empty string. -/
theorem c1_extract_total_amended (soup : Soup) (hostname : Option String) :
    (NotJoAps.extract_job_info_from_html soup hostname).1 ≠ "" ∧
    (hostBase (sReplace (pyOrStr hostname "") "www." "") ≠ "" →
      (NotJoAps.extract_job_info_from_html soup hostname).2 ≠ "") ∧
    (soup.h1Text = "" → firstHit soup.selHit titleSelectors = "" →
      resolveTitleText soup = "" →
      (NotJoAps.extract_job_info_from_html soup hostname).1
        = "Job from " ++ pyOrStr hostname "Unknown") ∧
    (soup.ogSiteName = "" → soup.hiringOrgName = "" →
      firstHit soup.selHit companySelectors = "" → resolveTitleText soup = "" →
      (NotJoAps.extract_job_info_from_html soup hostname).2
        = pyCapitalize (hostBase (sReplace (pyOrStr hostname "") "www." ""))) ∧
    (NotJoApsWD.extract_job_info_from_html soup hostname).1 ≠ "" ∧
    (hostBase (sReplace (sToLower (pyOrStr hostname "")) "www." "") ≠ "" →
      (NotJoApsWD.extract_job_info_from_html soup hostname).2 ≠ "") ∧
    (scanLd soup.ldJson = none → soup.h1Text = "" →
      firstHit soup.selHit titleSelectors = "" → resolveTitleText soup = "" →
      (NotJoApsWD.extract_job_info_from_html soup hostname).1
        = "Job from " ++ (if sToLower (pyOrStr hostname "") ≠ ""
                          then sToLower (pyOrStr hostname "") else "Unknown")) ∧
    (scanLd soup.ldJson = none →
      ¬ sContainsP (sToLower (pyOrStr hostname "")) "myworkdayjobs.com" →
      soup.ogSiteName = "" → soup.hiringOrgName = "" → resolveTitleText soup = "" →
      (NotJoApsWD.extract_job_info_from_html soup hostname).2
        = pyCapitalize (hostBase (sReplace (sToLower (pyOrStr hostname "")) "www." ""))) := by
  refine ⟨?_, ?_, ?_, ?_, ?_, ?_, ?_, ?_⟩
  · rw [plain_fst]
    split
    · exact jobFrom_ne_empty _
    · assumption
  · intro hb
    rw [plain_snd]
    exact plainCompanyCascade_ne soup hostname hb
  · intro h1 h2 h3
    rw [plain_fst, if_pos (genericJobTitle_eq_empty soup h1 h2 h3)]
  · intro h4 h5 h6 h7
    rw [plain_snd]
    unfold NotJoAps.companyCascade
    have e1 : companyStep1 soup = "" := by simp [companyStep1, h4]
    have e2 : companyStep2 soup "" = "" := by simp [companyStep2, h5]
    have e3 : companyStep3 soup "" = "" := by simp [companyStep3, h6]
    rw [e1, e2, e3, h7]
    have e4 : companyFromAt (companyFromPipe "" "") "" = "" := by decide
    rw [e4]
    simp [companyStep6Host]
  · rw [wd_fst]
    unfold NotJoApsWD.wdTitle
    split
    all_goals try split
    all_goals first
      | exact jobFrom_ne_empty _
      | assumption
  · intro hb
    rw [wd_snd]
    exact wdCompanyCascade_ne soup _ _ hb
  · intro hscan h1 h2 h3
    have hsp : NotJoApsWD.scanPair soup = ("", "") := by
      unfold NotJoApsWD.scanPair
      rw [hscan]
    have hg := genericJobTitle_eq_empty soup h1 h2 h3
    rw [wd_fst]
    unfold NotJoApsWD.wdTitle
    rw [hsp]
    simp [hg]
  · intro hscan hwd h4 h5 h7
    have hsp : NotJoApsWD.scanPair soup = ("", "") := by
      unfold NotJoApsWD.scanPair
      rw [hscan]
    rw [wd_snd, if_neg hwd, hsp]
    unfold NotJoApsWD.companyCascade
    have e0 : wdOgStep soup ("", "").2 = "" := by simp [wdOgStep, h4]
    rw [e0]
    have e2 : companyStep2 soup "" = "" := by simp [companyStep2, h5]
    rw [e2, h7]
    have e4 : companyFromAt (companyFromPipe "" "") "" = "" := by decide
    rw [e4]
    simp [companyStep6Host]

/-- Witness for C1 (amended) on an empty document with hostname
`jobs.example.com`. -/
theorem c1_witness :
    (NotJoAps.extract_job_info_from_html emptySoup (some "jobs.example.com")).1
        = "Job from " ++ pyOrStr (some "jobs.example.com") "Unknown" ∧
    (NotJoApsWD.extract_job_info_from_html emptySoup (some "jobs.example.com")).2 ≠ "" :=
  ⟨(c1_extract_total_amended emptySoup (some "jobs.example.com")).2.2.1
      (by decide) (by decide) (by decide),
   (c1_extract_total_amended emptySoup (some "jobs.example.com")).2.2.2.2.2.1 (by decide)⟩

/-- C3 counterexample: a document carrying both a structured `JobPosting`
block with title `"Structured Title"` and an `<h1>` reading
`"Heading Title"`: the extractor of `Not_JoAps.py` (which has no
structured-data step in its title cascade) resolves the title from the
heading, not from the structured block. -/
theorem c3_counterexample :
    (NotJoAps.extract_job_info_from_html structuredVsHeadingSoup (some "jobs.example.com")).1
        = "Heading Title" ∧
    "Heading Title" ≠ "Structured Title" := by decide

theorem scanLd_cons_none (rest : List (Option JVal)) :
    scanLd (none :: rest) = scanLd rest := rfl

theorem scanLd_cons_some (j : JVal) (rest : List (Option JVal)) :
    scanLd (some j :: rest) =
      (match scriptCand j with
       | .error _ => none
       | .ok (some p) => some p
       | .ok none => scanLd rest) := rfl

/-- Scripts that are unparseable (`none`) or yield no candidate
(`scriptCand = ok none`: not a dict, or not tagged `JobPosting`, or a list
with no candidate item) are skipped by the scanning loop. -/
theorem scanLd_append_skip (skipped l : List (Option JVal))
    (hskip : ∀ x ∈ skipped, x = none ∨ ∃ jx, x = some jx ∧ scriptCand jx = .ok none) :
    scanLd (skipped ++ l) = scanLd l := by
  induction skipped with
  | nil => rfl
  | cons x xs ih =>
    have hxs : ∀ y ∈ xs, y = none ∨ ∃ jy, y = some jy ∧ scriptCand jy = .ok none :=
      fun y hy => hskip y (by simp [hy])
    rcases hskip x (by simp) with hnone | ⟨jx, hjx, hres⟩
    · subst hnone
      rw [List.cons_append, scanLd_cons_none]
      exact ih hxs
    · subst hjx
      rw [List.cons_append, scanLd_cons_some, hres]
      exact ih hxs

/-- C3 (amended): in the Workday-optimized extractor (`Not_JoAps-WD.py`),
the title of the first job-posting-tagged structured block wins over the
heading: when every embedded structured-data block before it is skipped by
the scan (unparseable, not a dict, not tagged as a job posting, or a list
with no job-posting item) and the block itself — directly or as the first
matching item of a decoded list — carries a non-empty stripped title, that
title pre-empts a different non-empty `<h1>`; the basic extractor
(`Not_JoAps.py`) has no structured-data step and resolves the title from
the heading. -/
theorem c3_structured_priority_amended (soup : Soup) (hostname : Option String)
    (skipped : List (Option JVal)) (j : JVal) (t : String) (c : Option String)
    (rest : List (Option JVal))
    (hld : soup.ldJson = skipped ++ some j :: rest)
    (hskip : ∀ x ∈ skipped, x = none ∨ ∃ jx, x = some jx ∧ scriptCand jx = .ok none)
    (hjp : scriptCand j = .ok (some (some t, c)))
    (ht : t ≠ "")
    (hh1 : soup.h1Text ≠ "") (_hdiff : soup.h1Text ≠ t) :
    (NotJoApsWD.extract_job_info_from_html soup hostname).1 = t ∧
    (NotJoAps.extract_job_info_from_html soup hostname).1 = soup.h1Text := by
  constructor
  · have hscan : scanLd soup.ldJson = some (some t, c) := by
      rw [hld, scanLd_append_skip skipped _ hskip, scanLd_cons_some, hjp]
    have hsp : (NotJoApsWD.scanPair soup).1 = t := by
      unfold NotJoApsWD.scanPair
      rw [hscan]
      simp [pyOrStr, ht]
    rw [wd_fst]
    unfold NotJoApsWD.wdTitle
    rw [hsp, if_neg ht, if_neg ht]
  · have hg : genericJobTitle soup = soup.h1Text := by
      unfold genericJobTitle
      rw [if_pos hh1]
    rw [plain_fst, hg, if_neg hh1]

/-- Witness for C3 (amended) on a concrete document where an unparseable
script and a non-job-posting block precede the job-posting block. -/
theorem c3_witness :
    (NotJoApsWD.extract_job_info_from_html precededStructuredSoup none).1
        = "Structured Title" ∧
    (NotJoAps.extract_job_info_from_html precededStructuredSoup none).1
        = precededStructuredSoup.h1Text :=
  c3_structured_priority_amended precededStructuredSoup none
    [none, some (JVal.obj [("@type", JVal.str "WebPage")])]
    (JVal.obj [("@type", JVal.str "JobPosting"), ("title", JVal.str "Structured Title")])
    "Structured Title" none []
    rfl
    (by
      intro x hx
      simp only [List.mem_cons, List.not_mem_nil, or_false] at hx
      rcases hx with rfl | rfl
      · exact Or.inl rfl
      · exact Or.inr ⟨JVal.obj [("@type", JVal.str "WebPage")], rfl, rfl⟩)
    rfl (by decide) (by decide) (by decide)

/-- C4: for every document and every hostname containing
`"myworkdayjobs.com"` whose first dot label (after stripping `www.`) is
`"acme-corp"`, the Workday-optimized extractor resolves the company to
`"Acme Corp"` (hyphens to spaces, words capitalized), regardless of any
structured-data hiring-organization value in the document — the hostname
pre-emption overwrites the JSON-LD company and all later steps are guarded
by `if not company`. -/
theorem c4_workday_company (soup : Soup) (hn : String)
    (hwd : sContainsP (sToLower hn) "myworkdayjobs.com")
    (hbrand : (sSplit (sReplace (sToLower hn) "www." "") ".").headD "" = "acme-corp") :
    (NotJoApsWD.extract_job_info_from_html soup (some hn)).2 = "Acme Corp" := by
  rw [wd_snd, pyOrStr_some_empty, if_pos hwd]
  have hb : NotJoApsWD.workdayBrand (sToLower hn) (NotJoApsWD.scanPair soup).2
      = "Acme Corp" := by
    unfold NotJoApsWD.workdayBrand
    rw [hbrand, if_pos (by decide)]
    decide
  rw [hb]
  unfold NotJoApsWD.companyCascade
  rw [wdOgStep_of_ne soup _ (by decide), companyStep2_of_ne soup _ (by decide),
      companyFromPipe_of_ne _ _ (by decide), companyFromAt_of_ne _ _ (by decide),
      companyStep6Host_of_ne _ _ (by decide)]

/-- Witness for C4 on a document whose JSON-LD names a different company. -/
theorem c4_witness :
    (NotJoApsWD.extract_job_info_from_html workdaySoup
        (some "acme-corp.wd5.myworkdayjobs.com")).2 = "Acme Corp" :=
  c4_workday_company workdaySoup "acme-corp.wd5.myworkdayjobs.com" (by decide) (by decide)

/-- C9: for every document whose resolved page-title text is
`"Senior Engineer at Acme | Careers"` and which yields no company from any
higher-priority step (no structured data, no Workday hostname pre-emption,
no og:site_name, no hiring-organization markup, no ATS company container;
the after-last-`|` step strips `"Careers"` away to emptiness), both
extractors resolve the company to `"Acme"` via the `" at "` pattern. -/
theorem c9_company_at_pattern (soup : Soup) (hostname : Option String)
    (htt : resolveTitleText soup = "Senior Engineer at Acme | Careers")
    (hog : soup.ogSiteName = "")
    (hho : soup.hiringOrgName = "")
    (hsel : firstHit soup.selHit companySelectors = "")
    (hscan : scanLd soup.ldJson = none)
    (hwd : ¬ sContainsP (sToLower (pyOrStr hostname "")) "myworkdayjobs.com") :
    (NotJoAps.extract_job_info_from_html soup hostname).2 = "Acme" ∧
    (NotJoApsWD.extract_job_info_from_html soup hostname).2 = "Acme" := by
  have e4 : companyFromAt
      (companyFromPipe "" "Senior Engineer at Acme | Careers")
      "Senior Engineer at Acme | Careers" = "Acme" := by decide
  constructor
  · rw [plain_snd]
    unfold NotJoAps.companyCascade
    have e1 : companyStep1 soup = "" := by simp [companyStep1, hog]
    have e2 : companyStep2 soup "" = "" := by simp [companyStep2, hho]
    have e3 : companyStep3 soup "" = "" := by simp [companyStep3, hsel]
    rw [e1, e2, e3, htt, e4]
    exact companyStep6Host_of_ne _ _ (by decide)
  · have hsp : NotJoApsWD.scanPair soup = ("", "") := by
      unfold NotJoApsWD.scanPair
      rw [hscan]
    rw [wd_snd, if_neg hwd, hsp]
    unfold NotJoApsWD.companyCascade
    have e0 : wdOgStep soup ("", "").2 = "" := by simp [wdOgStep, hog]
    have e2 : companyStep2 soup "" = "" := by simp [companyStep2, hho]
    rw [e0, e2, htt, e4]
    exact companyStep6Host_of_ne _ _ (by decide)

/-- Witness for C9 on a document whose only signal is that page title. -/
theorem c9_witness :
    (NotJoAps.extract_job_info_from_html atPatternSoup (some "x.example.com")).2 = "Acme" ∧
    (NotJoApsWD.extract_job_info_from_html atPatternSoup (some "x.example.com")).2 = "Acme" :=
  c9_company_at_pattern atPatternSoup (some "x.example.com")
    (by decide) (by decide) (by decide) (by decide) rfl (by decide)

/-- C6 counterexample: `sanitize_for_filename "C++ Dev / Team: A<B>"` is NOT
`"C_Dev_Team_AB"` — `'+'` is not in the forbidden character set
`\\/:*?"<>|`, and whitespace is collapsed BEFORE the forbidden characters
are removed, so deleting `" / "`'s slash leaves two spaces and hence a
double underscore. -/
theorem c6_counterexample :
    sanitize_for_filename "C++ Dev / Team: A<B>" ≠ "C_Dev_Team_AB" := by decide

/-- C6 (amended): `sanitize_for_filename "C++ Dev / Team: A<B>"` returns
exactly `"C++_Dev__Team_AB"`: the characters `\/:<>` etc. of the set
`\\/:*?"<>|` are removed (`+` is kept), and each remaining space becomes an
underscore, including the now-adjacent pair around the deleted slash. -/
theorem c6_sanitize_amended :
    sanitize_for_filename "C++ Dev / Team: A<B>" = "C++_Dev__Team_AB" := by decide
